import Mathlib

/-!
Verification of the speedtest exporter core
(`internal/exporter/exporter.go`): the unit normalizer, the server
selector with its URL repair, the three probe phases and the collection
cycle. Go `float64` values are modelled as rationals (`ℚ`), Go strings as
`String` (or `List Char` where character-level structure matters), and
the external network operations (`FetchUserInfo`, `FetchServerList`,
`PingTest`, `DownloadTest`, `UploadTest`) as oracle inputs: `none` is an
error return, `some v` a success that populated the measured value `v`.
-/

namespace SpeedtestExporter

/-- The caller identity fetched by `speedtest.FetchUserInfo` (external
library record; the exporter reads `Lat`, `Lon`, `IP`, `Isp`, all Go
strings). -/
structure User where
  lat : String
  lon : String
  ip : String
  isp : String
  deriving DecidableEq, Repr

/-- A candidate server from `speedtest.FetchServerList` (external library
record; the exporter reads `ID`, `Name`, `Country`, `Lat`, `Lon`,
`Host`, `URL`, `Distance`). The identifier is modelled as an integer,
which is what the exporter's configured `serverID` is compared against.
The measurement fields the library populates as side effects
(`Latency`, `DLSpeed`, `ULSpeed`) are modelled as the oracle results of
the corresponding operations, not stored here. -/
structure Server where
  id : Int
  name : String
  country : String
  lat : String
  lon : String
  host : String
  url : List Char
  distance : ℚ
  deriving DecidableEq, Repr

/-- `normalizeSpeed` from `exporter.go`: maps an ambiguous raw
throughput reading to bytes per second by a magnitude-banded heuristic.
Direct transcription of the Go `if` chain. -/
def normalizeSpeed (rawValue : ℚ) : ℚ :=
  if 0 < rawValue ∧ rawValue < 20 then rawValue * 125000000
  else if 20 ≤ rawValue ∧ rawValue < 20000 then rawValue * 125000
  else if 20000 ≤ rawValue ∧ rawValue < 20000000 then rawValue * 125
  else if 20000000 ≤ rawValue then rawValue / 8
  else rawValue / 8

/-- C1: `normalizeSpeed` follows the magnitude-band table: `(0,20)`
Gbps × 125,000,000; `[20,20000)` Mbps × 125,000; `[20000,20000000)`
Kbps × 125; `[20000000,∞)` bits/sec ÷ 8; zero or negative input falls
to the fallback ÷ 8 — and in particular `normalize 10 = 1250000000`,
`normalize 20 = 2500000`, `normalize 0 = 0`, `normalize (-5) = -5/8`. -/
theorem normalizeSpeed_bands (r : ℚ) :
    (0 < r → r < 20 → normalizeSpeed r = r * 125000000) ∧
    (20 ≤ r → r < 20000 → normalizeSpeed r = r * 125000) ∧
    (20000 ≤ r → r < 20000000 → normalizeSpeed r = r * 125) ∧
    (20000000 ≤ r → normalizeSpeed r = r / 8) ∧
    (r ≤ 0 → normalizeSpeed r = r / 8) ∧
    normalizeSpeed 10 = 1250000000 ∧
    normalizeSpeed 20 = 2500000 ∧
    normalizeSpeed 0 = 0 ∧
    normalizeSpeed (-5) = -5 / 8 := by
  refine ⟨?_, ?_, ?_, ?_, ?_, ?_, ?_, ?_, ?_⟩
  · intro h1 h2
    unfold normalizeSpeed
    rw [if_pos ⟨h1, h2⟩]
  · intro h1 h2
    unfold normalizeSpeed
    rw [if_neg (by rintro ⟨_, h⟩; linarith), if_pos ⟨h1, h2⟩]
  · intro h1 h2
    unfold normalizeSpeed
    rw [if_neg (by rintro ⟨_, h⟩; linarith),
      if_neg (by rintro ⟨_, h⟩; linarith), if_pos ⟨h1, h2⟩]
  · intro h1
    unfold normalizeSpeed
    rw [if_neg (by rintro ⟨_, h⟩; linarith),
      if_neg (by rintro ⟨_, h⟩; linarith),
      if_neg (by rintro ⟨_, h⟩; linarith), if_pos h1]
  · intro h1
    unfold normalizeSpeed
    rw [if_neg (by rintro ⟨h, _⟩; linarith),
      if_neg (by rintro ⟨h, _⟩; linarith),
      if_neg (by rintro ⟨h, _⟩; linarith),
      if_neg (by intro h; linarith)]
  · norm_num [normalizeSpeed]
  · norm_num [normalizeSpeed]
  · norm_num [normalizeSpeed]
  · norm_num [normalizeSpeed]

/-- Witness for C1: the Gbps band at input 10. -/
theorem normalizeSpeed_bands_witness :
    normalizeSpeed 10 = 10 * 125000000 :=
  (normalizeSpeed_bands 10).1 (by norm_num) (by norm_num)

/-- Go `strings.HasPrefix s pat`, character-level model: `true` iff
`pat` is a leading substring of `s`. -/
def hasPrefixL : List Char → List Char → Bool
  | _, [] => true
  | [], _ :: _ => false
  | c :: cs, p :: ps => c == p && hasPrefixL cs ps

/-- Go `strings.Replace s old new 1`: replace the first occurrence of
`old` in `s` by `new` (an empty `old` matches at the start of `s`);
when there is no occurrence, `s` is returned unchanged. -/
def replaceOnce (old new : List Char) : List Char → List Char
  | [] => if hasPrefixL [] old then new ++ List.drop old.length [] else []
  | c :: cs =>
    if hasPrefixL (c :: cs) old then new ++ List.drop old.length (c :: cs)
    else c :: replaceOnce old new cs

/-- The malformed scheme pattern `"http//"` from the URL workaround. -/
def malformedScheme : List Char := "http//".toList

/-- The corrected scheme `"http://"` from the URL workaround. -/
def correctScheme : List Char := "http://".toList

/-- The URL-repair workaround in `speedtest` (`exporter.go` lines
136–142): when the selected server's URL starts with `"http//"`, the
first occurrence of `"http//"` is replaced by `"http://"`. -/
def repairURL (url : List Char) : List Char :=
  if hasPrefixL url malformedScheme then
    replaceOnce malformedScheme correctScheme url
  else url

theorem hasPrefixL_append (p r : List Char) : hasPrefixL (p ++ r) p = true := by
  induction p with
  | nil => simp [hasPrefixL]
  | cons c cs ih => simp [hasPrefixL, ih]

theorem replaceOnce_of_hasPrefixL (old new s : List Char)
    (h : hasPrefixL s old = true) :
    replaceOnce old new s = new ++ List.drop old.length s := by
  cases s with
  | nil =>
    cases old with
    | nil => simp [replaceOnce, hasPrefixL]
    | cons p ps => simp [hasPrefixL] at h
  | cons c cs => simp [replaceOnce, h]

theorem hasPrefixL_correctScheme_malformedScheme (r : List Char) :
    hasPrefixL (correctScheme ++ r) malformedScheme = false := rfl

/-- C3: URL repair rewrites exactly the URLs beginning with `"http//"`,
replacing that first occurrence with `"http://"`; any other URL —
including well-formed `"http://..."` URLs and non-http schemes such as
`"ftp//z"` — is unchanged. -/
theorem repairURL_spec :
    (∀ rest : List Char,
      repairURL (malformedScheme ++ rest) = correctScheme ++ rest) ∧
    (∀ url : List Char, hasPrefixL url malformedScheme = false →
      repairURL url = url) ∧
    repairURL "http//x.example".toList = "http://x.example".toList ∧
    repairURL "http://y.example".toList = "http://y.example".toList ∧
    repairURL "ftp//z".toList = "ftp//z".toList := by
  refine ⟨?_, ?_, by decide, by decide, by decide⟩
  · intro rest
    have h := hasPrefixL_append malformedScheme rest
    unfold repairURL
    rw [if_pos h, replaceOnce_of_hasPrefixL _ _ _ h, List.drop_left]
  · intro url h
    unfold repairURL
    rw [if_neg (by simp [h])]

/-- Witness for C3: a URL without the malformed pattern is unchanged. -/
theorem repairURL_spec_witness :
    repairURL "ftp//z".toList = "ftp//z".toList :=
  repairURL_spec.2.1 "ftp//z".toList (by decide)

/-- C10: URL repair is idempotent — its output never begins with
`"http//"`, so a second application leaves the output unchanged. -/
theorem repairURL_idem (url : List Char) :
    hasPrefixL (repairURL url) malformedScheme = false ∧
    repairURL (repairURL url) = repairURL url := by
  by_cases h : hasPrefixL url malformedScheme = true
  · have e : repairURL url = correctScheme ++ List.drop malformedScheme.length url := by
      unfold repairURL
      rw [if_pos h, replaceOnce_of_hasPrefixL _ _ _ h]
    have hf := hasPrefixL_correctScheme_malformedScheme
      (List.drop malformedScheme.length url)
    constructor
    · rw [e]
      exact hf
    · rw [e]
      unfold repairURL
      rw [if_neg (by simp [hf])]
  · have hf : hasPrefixL url malformedScheme = false := by
      cases hb : hasPrefixL url malformedScheme with
      | true => exact absurd hb h
      | false => rfl
    have e : repairURL url = url := by
      unfold repairURL
      rw [if_neg h]
    constructor
    · rw [e]
      exact hf
    · rw [e]
      exact e

/-- The external library's `ServerList.FindServer` called with the
single-element list `[serverID]`. Modelled from the spec: the library
itself is not part of this repository; per the spec the lookup returns
the candidates whose identifier matches the configured preference. -/
def findServer (serverID : Int) (servers : List Server) : List Server :=
  servers.filter (fun s => s.id == serverID)

/-- The server-selection logic of `speedtest` (`exporter.go` lines
104–134): sentinel `-1` takes the first (closest) server, failing on an
empty list; otherwise look the identifier up, and on a miss fail unless
`serverFallback` is set, in which case take the first server, failing
on an empty list. -/
def selectServer (serverID : Int) (serverFallback : Bool)
    (servers : List Server) : Option Server :=
  if serverID == -1 then
    match servers with
    | [] => none
    | s :: _ => some s
  else
    match findServer serverID servers with
    | [] =>
      if !serverFallback then none
      else
        match servers with
        | [] => none
        | s :: _ => some s
    | s :: _ => some s

/-- C2: the four-case selection policy — sentinel `-1` selects the
first candidate (failing exactly on an empty list); a configured
identifier present in the list selects a candidate carrying that
identifier; an absent identifier without fallback fails; an absent
identifier with fallback selects the first candidate (failing exactly
on an empty list). -/
theorem selectServer_policy (serverID : Int) (serverFallback : Bool)
    (servers : List Server) :
    (serverID = -1 →
      selectServer serverID serverFallback servers = servers.head?) ∧
    (serverID ≠ -1 → (∃ s ∈ servers, s.id = serverID) →
      ∃ s, selectServer serverID serverFallback servers = some s ∧
        s.id = serverID ∧ s ∈ servers) ∧
    (serverID ≠ -1 → (∀ s ∈ servers, s.id ≠ serverID) →
      serverFallback = false →
      selectServer serverID serverFallback servers = none) ∧
    (serverID ≠ -1 → (∀ s ∈ servers, s.id ≠ serverID) →
      serverFallback = true →
      selectServer serverID serverFallback servers = servers.head?) := by
  refine ⟨?_, ?_, ?_, ?_⟩
  · intro h
    subst h
    unfold selectServer
    rw [if_pos (by simp)]
    cases servers <;> rfl
  · rintro hne ⟨s, hs, hid⟩
    unfold selectServer
    rw [if_neg (by simp [hne])]
    have hmem : s ∈ findServer serverID servers := by
      simp only [findServer, List.mem_filter]
      exact ⟨hs, by simp [hid]⟩
    cases hf : findServer serverID servers with
    | nil => simp [hf] at hmem
    | cons t ts =>
      have ht : t ∈ findServer serverID servers := by
        rw [hf]
        exact List.mem_cons_self _ _
      refine ⟨t, rfl, ?_, List.mem_of_mem_filter ht⟩
      have := List.of_mem_filter ht
      simpa using this
  · intro hne habs hfb
    unfold selectServer
    rw [if_neg (by simp [hne])]
    have hf : findServer serverID servers = [] := by
      simp only [findServer, List.filter_eq_nil_iff]
      intro s hs
      simp [habs s hs]
    rw [hf, hfb]
    rfl
  · intro hne habs hfb
    unfold selectServer
    rw [if_neg (by simp [hne])]
    have hf : findServer serverID servers = [] := by
      simp only [findServer, List.filter_eq_nil_iff]
      intro s hs
      simp [habs s hs]
    rw [hf, hfb]
    cases servers <;> rfl

/-- A concrete identity record used in witnesses. -/
def sampleUser : User :=
  { lat := "52.0", lon := "13.0", ip := "203.0.113.5", isp := "ExampleNet" }

/-- A concrete candidate server used in witnesses. -/
def sampleServer : Server :=
  { id := 7, name := "Alpha", country := "DE", lat := "52.5", lon := "13.4",
    host := "alpha.example:8080",
    url := "http//alpha.example/upload.php".toList, distance := 12 }

/-- Witness for C2: the configured identifier 7 is found in a
one-element list and that candidate is selected. -/
theorem selectServer_policy_witness :
    ∃ s, selectServer 7 false [sampleServer] = some s ∧
      s.id = 7 ∧ s ∈ [sampleServer] :=
  (selectServer_policy 7 false [sampleServer]).2.1 (by decide)
    ⟨sampleServer, by simp, by decide⟩

/-- The five metric descriptors declared in `exporter.go` lines 18–47. -/
inductive MetricKind
  | up
  | scrapeDurationSeconds
  | latency
  | download
  | upload
  deriving DecidableEq, Repr

/-- The label names each `prometheus.NewDesc` descriptor declares
(`exporter.go` lines 18–47): one label for `up` and
`scrape_duration_seconds`, eleven for the three phase metrics. -/
def descLabelNames : MetricKind → List String
  | .up => ["test_uuid"]
  | .scrapeDurationSeconds => ["test_uuid"]
  | .latency =>
    ["test_uuid", "user_lat", "user_lon", "user_ip", "user_isp",
     "server_lat", "server_lon", "server_id", "server_name",
     "server_country", "distance"]
  | .download =>
    ["test_uuid", "user_lat", "user_lon", "user_ip", "user_isp",
     "server_lat", "server_lon", "server_id", "server_name",
     "server_country", "distance"]
  | .upload =>
    ["test_uuid", "user_lat", "user_lon", "user_ip", "user_isp",
     "server_lat", "server_lon", "server_id", "server_name",
     "server_country", "distance"]

/-- One metric emission (one `prometheus.MustNewConstMetric` value sent
to the channel): its descriptor, its gauge value and its label values,
in order. -/
structure Metric where
  kind : MetricKind
  value : ℚ
  labels : List String
  deriving DecidableEq, Repr

/-- Models `fmt.Sprintf "%f" d`, the fixed-precision rendering of the
server distance into the `distance` label; the claims depend only on
this being one label value. -/
def formatDistance (d : ℚ) : String := toString d

/-- Models the rendering of the server identifier into the `server_id`
label (the library stores the identifier the exporter matches on). -/
def formatID (id : Int) : String := toString id

/-- The eleven label values every phase emission passes, in order
(`exporter.go` lines 184–188, 204–208, 224–228). -/
def phaseLabels (testUUID : String) (user : User) (server : Server) :
    List String :=
  [testUUID, user.lat, user.lon, user.ip, user.isp,
   server.lat, server.lon, formatID server.id, server.name,
   server.country, formatDistance server.distance]

/-- `pingTest` (`exporter.go` lines 177–191). The network operation is
the oracle `pingResult`: `none` is an error return, `some l` success
with the populated `server.Latency.Seconds()` equal to `l`. Returns the
phase's boolean and the metrics it sent. -/
def pingTest (testUUID : String) (user : User) (server : Server)
    (pingResult : Option ℚ) : Bool × List Metric :=
  match pingResult with
  | none => (false, [])
  | some l =>
    (true, [Metric.mk MetricKind.latency l (phaseLabels testUUID user server)])

/-- `downloadTest` (`exporter.go` lines 193–211). The oracle `dlResult`
is `none` on error, `some raw` on success with populated
`server.DLSpeed` equal to `raw`; the emitted value is the normalized
speed. -/
def downloadTest (testUUID : String) (user : User) (server : Server)
    (dlResult : Option ℚ) : Bool × List Metric :=
  match dlResult with
  | none => (false, [])
  | some raw =>
    (true, [Metric.mk MetricKind.download (normalizeSpeed raw)
      (phaseLabels testUUID user server)])

/-- `uploadTest` (`exporter.go` lines 213–231), same shape as the
download phase with the upload oracle. -/
def uploadTest (testUUID : String) (user : User) (server : Server)
    (ulResult : Option ℚ) : Bool × List Metric :=
  match ulResult with
  | none => (false, [])
  | some raw =>
    (true, [Metric.mk MetricKind.upload (normalizeSpeed raw)
      (phaseLabels testUUID user server)])

/-- The in-place URL fix-up `server.URL = correctedURL` applied to the
selected server (`exporter.go` lines 136–142). -/
def repairServer (s : Server) : Server := { s with url := repairURL s.url }

/-- `Exporter.speedtest` (`exporter.go` lines 91–153), with the external
fetches as oracle inputs (`none` is an error). Returns the overall
boolean and the metrics sent to the channel, in order. -/
def speedtest (serverID : Int) (serverFallback : Bool) (testUUID : String)
    (userResult : Option User) (serverListResult : Option (List Server))
    (pingResult dlResult ulResult : Option ℚ) : Bool × List Metric :=
  match userResult with
  | none => (false, [])
  | some user =>
    match serverListResult with
    | none => (false, [])
    | some servers =>
      match selectServer serverID serverFallback servers with
      | none => (false, [])
      | some sel =>
        let server := repairServer sel
        let ping := pingTest testUUID user server pingResult
        let dl := downloadTest testUUID user server dlResult
        let ul := uploadTest testUUID user server ulResult
        (ping.1 && dl.1 && ul.1, ping.2 ++ dl.2 ++ ul.2)

/-- `Exporter.Collect` (`exporter.go` lines 75–89): run the speedtest,
then always emit the scrape-duration metric and the up metric (value 1
on overall success, 0 otherwise), both labelled with the cycle's
`testUUID`. `duration` is the elapsed wall-clock time the cycle
measured. -/
def Collect (serverID : Int) (serverFallback : Bool) (testUUID : String)
    (duration : ℚ) (userResult : Option User)
    (serverListResult : Option (List Server))
    (pingResult dlResult ulResult : Option ℚ) : List Metric :=
  let r := speedtest serverID serverFallback testUUID userResult
    serverListResult pingResult dlResult ulResult
  r.2 ++ [Metric.mk MetricKind.scrapeDurationSeconds duration [testUUID],
          Metric.mk MetricKind.up (if r.1 then 1 else 0) [testUUID]]

/-- Number of emitted metrics carrying a given descriptor. -/
def countKind : List Metric → MetricKind → Nat
  | [], _ => 0
  | m :: ms, k => (if m.kind = k then 1 else 0) + countKind ms k

theorem countKind_append (ms ns : List Metric) (k : MetricKind) :
    countKind (ms ++ ns) k = countKind ms k + countKind ns k := by
  induction ms with
  | nil => simp [countKind]
  | cons m ms ih =>
    simp only [List.cons_append, countKind, List.append_eq, ih]
    omega

/-- C4: once a server is selected, the latency, download and upload
phases are all invoked, in that order, for every combination of
per-phase outcomes — no earlier failure skips a later phase — and the
cycle's overall success is the conjunction of the three per-phase
booleans. -/
theorem speedtest_phase_conjunction (serverID : Int) (serverFallback : Bool)
    (testUUID : String) (user : User) (servers : List Server) (sel : Server)
    (hsel : selectServer serverID serverFallback servers = some sel)
    (pingResult dlResult ulResult : Option ℚ) :
    speedtest serverID serverFallback testUUID (some user) (some servers)
        pingResult dlResult ulResult
      = (pingResult.isSome && dlResult.isSome && ulResult.isSome,
         (pingTest testUUID user (repairServer sel) pingResult).2 ++
         (downloadTest testUUID user (repairServer sel) dlResult).2 ++
         (uploadTest testUUID user (repairServer sel) ulResult).2) := by
  simp only [speedtest]
  rw [hsel]
  cases pingResult <;> cases dlResult <;> cases ulResult <;>
    simp [pingTest, downloadTest, uploadTest]

/-- Witness for C4: a cycle with a failed download phase between
successful ping and upload phases. -/
theorem speedtest_phase_conjunction_witness :
    speedtest (-1) false "cycle-1" (some sampleUser) (some [sampleServer])
        (some 1) none (some 2)
      = (false,
         (pingTest "cycle-1" sampleUser (repairServer sampleServer) (some 1)).2 ++
         (downloadTest "cycle-1" sampleUser (repairServer sampleServer) none).2 ++
         (uploadTest "cycle-1" sampleUser (repairServer sampleServer) (some 2)).2) := by
  have h := speedtest_phase_conjunction (-1) false "cycle-1" sampleUser
    [sampleServer] sampleServer (by decide) (some 1) none (some 2)
  simpa using h

/-- C6: each phase emits its measurement iff its network operation
succeeds — on error the phase returns false having emitted nothing, on
success it emits exactly one measurement (the latency in seconds, or
the throughput normalized to bytes per second) and returns true. -/
theorem phase_emission (testUUID : String) (user : User) (server : Server)
    (r : Option ℚ) :
    ((pingTest testUUID user server r).1 = r.isSome ∧
      (pingTest testUUID user server r).2.length =
        (if r.isSome then 1 else 0) ∧
      ∀ l, r = some l → (pingTest testUUID user server r).2 =
        [Metric.mk MetricKind.latency l (phaseLabels testUUID user server)]) ∧
    ((downloadTest testUUID user server r).1 = r.isSome ∧
      (downloadTest testUUID user server r).2.length =
        (if r.isSome then 1 else 0) ∧
      ∀ raw, r = some raw → (downloadTest testUUID user server r).2 =
        [Metric.mk MetricKind.download (normalizeSpeed raw)
          (phaseLabels testUUID user server)]) ∧
    ((uploadTest testUUID user server r).1 = r.isSome ∧
      (uploadTest testUUID user server r).2.length =
        (if r.isSome then 1 else 0) ∧
      ∀ raw, r = some raw → (uploadTest testUUID user server r).2 =
        [Metric.mk MetricKind.upload (normalizeSpeed raw)
          (phaseLabels testUUID user server)]) := by
  cases r <;> simp [pingTest, downloadTest, uploadTest]

/-- Witness for C6: a successful ping phase emits its one latency
metric. -/
theorem phase_emission_witness :
    (pingTest "cycle-2" sampleUser sampleServer (some 3)).2 =
      [Metric.mk MetricKind.latency 3
        (phaseLabels "cycle-2" sampleUser sampleServer)] :=
  (phase_emission "cycle-2" sampleUser sampleServer (some 3)).1.2.2 3 rfl

theorem speedtest_no_up_no_scrape (serverID : Int) (serverFallback : Bool)
    (testUUID : String) (userResult : Option User)
    (serverListResult : Option (List Server))
    (pingResult dlResult ulResult : Option ℚ) :
    countKind (speedtest serverID serverFallback testUUID userResult
        serverListResult pingResult dlResult ulResult).2 MetricKind.up = 0 ∧
    countKind (speedtest serverID serverFallback testUUID userResult
        serverListResult pingResult dlResult ulResult).2
      MetricKind.scrapeDurationSeconds = 0 := by
  cases userResult with
  | none => simp [speedtest, countKind]
  | some user =>
    cases serverListResult with
    | none => simp [speedtest, countKind]
    | some servers =>
      cases hsel : selectServer serverID serverFallback servers with
      | none => simp [speedtest, hsel, countKind]
      | some sel =>
        cases pingResult <;> cases dlResult <;> cases ulResult <;>
          simp [speedtest, hsel, pingTest, downloadTest, uploadTest, countKind]

theorem speedtest_early_failure (serverID : Int) (serverFallback : Bool)
    (testUUID : String) (userResult : Option User)
    (serverListResult : Option (List Server))
    (pingResult dlResult ulResult : Option ℚ)
    (h : userResult = none ∨ serverListResult = none ∨
      ∃ servers, serverListResult = some servers ∧
        selectServer serverID serverFallback servers = none) :
    speedtest serverID serverFallback testUUID userResult serverListResult
      pingResult dlResult ulResult = (false, []) := by
  rcases h with h | h | ⟨servers, h, hsel⟩
  · rw [h]
    rfl
  · cases userResult with
    | none => rfl
    | some user =>
      rw [h]
      rfl
  · cases userResult with
    | none => rfl
    | some user =>
      rw [h]
      simp only [speedtest]
      rw [hsel]

/-- C5: every collection cycle emits exactly one scrape-duration and
exactly one up measurement (value 1 on overall success, 0 otherwise);
in cycles where identity fetch, candidate fetch or selection fails, no
phase metric is emitted and the up measurement carries 0. -/
theorem collect_up_and_duration (serverID : Int) (serverFallback : Bool)
    (testUUID : String) (duration : ℚ) (userResult : Option User)
    (serverListResult : Option (List Server))
    (pingResult dlResult ulResult : Option ℚ) (ms : List Metric)
    (hms : ms = Collect serverID serverFallback testUUID duration userResult
      serverListResult pingResult dlResult ulResult) :
    countKind ms MetricKind.scrapeDurationSeconds = 1 ∧
    countKind ms MetricKind.up = 1 ∧
    Metric.mk MetricKind.scrapeDurationSeconds duration [testUUID] ∈ ms ∧
    Metric.mk MetricKind.up
        (if (speedtest serverID serverFallback testUUID userResult
            serverListResult pingResult dlResult ulResult).1 then 1 else 0)
        [testUUID] ∈ ms ∧
    ((userResult = none ∨ serverListResult = none ∨
        ∃ servers, serverListResult = some servers ∧
          selectServer serverID serverFallback servers = none) →
      countKind ms MetricKind.latency = 0 ∧
      countKind ms MetricKind.download = 0 ∧
      countKind ms MetricKind.upload = 0 ∧
      Metric.mk MetricKind.up 0 [testUUID] ∈ ms) := by
  subst hms
  have hns := speedtest_no_up_no_scrape serverID serverFallback testUUID
    userResult serverListResult pingResult dlResult ulResult
  refine ⟨?_, ?_, ?_, ?_, ?_⟩
  · simp [Collect, countKind_append, hns.2, countKind]
  · simp [Collect, countKind_append, hns.1, countKind]
  · simp [Collect]
  · simp [Collect]
  · intro h
    have he := speedtest_early_failure serverID serverFallback testUUID
      userResult serverListResult pingResult dlResult ulResult h
    simp [Collect, he, countKind]

/-- Witness for C5: a cycle whose identity fetch fails emits only the
duration metric and an up metric carrying 0. -/
theorem collect_up_and_duration_witness :
    countKind (Collect (-1) false "cycle-3" 4 none none none none none)
        MetricKind.scrapeDurationSeconds = 1 ∧
    countKind (Collect (-1) false "cycle-3" 4 none none none none none)
        MetricKind.latency = 0 ∧
    Metric.mk MetricKind.up 0 ["cycle-3"] ∈
      Collect (-1) false "cycle-3" 4 none none none none none := by
  have h := collect_up_and_duration (-1) false "cycle-3" 4 none none none
    none none (Collect (-1) false "cycle-3" 4 none none none none none) rfl
  exact ⟨h.1, (h.2.2.2.2 (Or.inl rfl)).1, (h.2.2.2.2 (Or.inl rfl)).2.2.2⟩

/-- C7: in a cycle where all three phases succeed, exactly five
measurements are emitted — latency, download, upload, scrape-duration
and up, one each — and every one carries the cycle's correlation
identifier among its labels. -/
theorem collect_all_success (serverID : Int) (serverFallback : Bool)
    (testUUID : String) (duration l d u : ℚ) (user : User)
    (servers : List Server) (sel : Server) (ms : List Metric)
    (hsel : selectServer serverID serverFallback servers = some sel)
    (hms : ms = Collect serverID serverFallback testUUID duration (some user)
      (some servers) (some l) (some d) (some u)) :
    ms.length = 5 ∧
    countKind ms MetricKind.up = 1 ∧
    countKind ms MetricKind.scrapeDurationSeconds = 1 ∧
    countKind ms MetricKind.latency = 1 ∧
    countKind ms MetricKind.download = 1 ∧
    countKind ms MetricKind.upload = 1 ∧
    ∀ m ∈ ms, testUUID ∈ m.labels := by
  subst hms
  have hsp : speedtest serverID serverFallback testUUID (some user)
      (some servers) (some l) (some d) (some u)
      = (true,
         [Metric.mk MetricKind.latency l
            (phaseLabels testUUID user (repairServer sel)),
          Metric.mk MetricKind.download (normalizeSpeed d)
            (phaseLabels testUUID user (repairServer sel)),
          Metric.mk MetricKind.upload (normalizeSpeed u)
            (phaseLabels testUUID user (repairServer sel))]) := by
    simp [speedtest, hsel, pingTest, downloadTest, uploadTest]
  refine ⟨?_, ?_, ?_, ?_, ?_, ?_, ?_⟩
  · simp [Collect, hsp]
  · simp [Collect, hsp, countKind]
  · simp [Collect, hsp, countKind]
  · simp [Collect, hsp, countKind]
  · simp [Collect, hsp, countKind]
  · simp [Collect, hsp, countKind]
  · intro m hm
    simp [Collect, hsp] at hm
    rcases hm with rfl | rfl | rfl | rfl | rfl <;> simp [phaseLabels]

/-- Witness for C7: a fully successful cycle against the sample server
emits five measurements. -/
theorem collect_all_success_witness :
    (Collect (-1) false "cycle-4" 2 (some sampleUser) (some [sampleServer])
      (some 1) (some 30) (some 40)).length = 5 :=
  (collect_all_success (-1) false "cycle-4" 2 1 30 40 sampleUser
    [sampleServer] sampleServer _ (by decide) rfl).1

theorem pingTest_shape (t : String) (u : User) (s : Server) (r : Option ℚ) :
    ∀ m ∈ (pingTest t u s r).2,
      m.kind = MetricKind.latency ∧ m.labels = phaseLabels t u s := by
  cases r <;> simp [pingTest]

theorem downloadTest_shape (t : String) (u : User) (s : Server) (r : Option ℚ) :
    ∀ m ∈ (downloadTest t u s r).2,
      m.kind = MetricKind.download ∧ m.labels = phaseLabels t u s := by
  cases r <;> simp [downloadTest]

theorem uploadTest_shape (t : String) (u : User) (s : Server) (r : Option ℚ) :
    ∀ m ∈ (uploadTest t u s r).2,
      m.kind = MetricKind.upload ∧ m.labels = phaseLabels t u s := by
  cases r <;> simp [uploadTest]

theorem speedtest_metric_shape (serverID : Int) (serverFallback : Bool)
    (testUUID : String) (userResult : Option User)
    (serverListResult : Option (List Server))
    (pingResult dlResult ulResult : Option ℚ) :
    ∀ m ∈ (speedtest serverID serverFallback testUUID userResult
        serverListResult pingResult dlResult ulResult).2,
      (m.kind = MetricKind.latency ∨ m.kind = MetricKind.download ∨
        m.kind = MetricKind.upload) ∧
      ∃ u s, m.labels = phaseLabels testUUID u s := by
  cases userResult with
  | none => intro m hm; simp [speedtest] at hm
  | some user =>
    cases serverListResult with
    | none => intro m hm; simp [speedtest] at hm
    | some servers =>
      cases hsel : selectServer serverID serverFallback servers with
      | none => intro m hm; simp [speedtest, hsel] at hm
      | some sel =>
        intro m hm
        simp only [speedtest, hsel] at hm
        rcases List.mem_append.mp hm with hm1 | hm1
        · rcases List.mem_append.mp hm1 with hp | hp
          · have h := pingTest_shape testUUID user (repairServer sel)
              pingResult m hp
            exact ⟨Or.inl h.1, user, repairServer sel, h.2⟩
          · have h := downloadTest_shape testUUID user (repairServer sel)
              dlResult m hp
            exact ⟨Or.inr (Or.inl h.1), user, repairServer sel, h.2⟩
        · have h := uploadTest_shape testUUID user (repairServer sel)
            ulResult m hm1
          exact ⟨Or.inr (Or.inr h.1), user, repairServer sel, h.2⟩

/-- C8: every metric emission of a cycle supplies exactly as many label
values as its metric descriptor declares label names (one for up and
scrape-duration, eleven for latency, download and upload), so the
panicking branch of the metric constructor is never reached and every
failure shows up only as a failed cycle. -/
theorem emission_label_arity (serverID : Int) (serverFallback : Bool)
    (testUUID : String) (duration : ℚ) (userResult : Option User)
    (serverListResult : Option (List Server))
    (pingResult dlResult ulResult : Option ℚ) :
    ∀ m ∈ Collect serverID serverFallback testUUID duration userResult
        serverListResult pingResult dlResult ulResult,
      m.labels.length = (descLabelNames m.kind).length := by
  intro m hm
  simp only [Collect] at hm
  rcases List.mem_append.mp hm with h | h
  · obtain ⟨hk, u, s, hl⟩ := speedtest_metric_shape serverID serverFallback
      testUUID userResult serverListResult pingResult dlResult ulResult m h
    rw [hl]
    rcases hk with h' | h' | h' <;> rw [h'] <;>
      simp [phaseLabels, descLabelNames]
  · simp only [List.mem_cons, List.not_mem_nil, or_false] at h
    rcases h with rfl | rfl <;> simp [descLabelNames]

/-- Witness for C8: the up metric of an all-failure cycle has exactly
the one label its descriptor declares. -/
theorem emission_label_arity_witness :
    (Metric.mk MetricKind.up 0 ["cycle-5"]).labels.length =
      (descLabelNames (Metric.mk MetricKind.up 0 ["cycle-5"]).kind).length :=
  emission_label_arity (-1) false "cycle-5" 4 none none none none none
    (Metric.mk MetricKind.up 0 ["cycle-5"]) (by decide)

/-- C9: after selection the remainder of the cycle changes no field of
the selected candidate except its URL, and that only by the single
URL-repair rewrite; the identity record and all other candidate fields
reach the three phases unchanged. -/
theorem selection_frame (serverID : Int) (serverFallback : Bool)
    (testUUID : String) (user : User) (servers : List Server) (sel : Server)
    (pingResult dlResult ulResult : Option ℚ)
    (hsel : selectServer serverID serverFallback servers = some sel) :
    (repairServer sel).id = sel.id ∧
    (repairServer sel).name = sel.name ∧
    (repairServer sel).country = sel.country ∧
    (repairServer sel).lat = sel.lat ∧
    (repairServer sel).lon = sel.lon ∧
    (repairServer sel).host = sel.host ∧
    (repairServer sel).distance = sel.distance ∧
    (repairServer sel).url = repairURL sel.url ∧
    (speedtest serverID serverFallback testUUID (some user) (some servers)
        pingResult dlResult ulResult).2 =
      (pingTest testUUID user (repairServer sel) pingResult).2 ++
      (downloadTest testUUID user (repairServer sel) dlResult).2 ++
      (uploadTest testUUID user (repairServer sel) ulResult).2 := by
  refine ⟨rfl, rfl, rfl, rfl, rfl, rfl, rfl, rfl, ?_⟩
  simp [speedtest, hsel]

/-- Witness for C9: the repaired sample server keeps its host and gets
the repaired URL. -/
theorem selection_frame_witness :
    (repairServer sampleServer).host = sampleServer.host ∧
    (repairServer sampleServer).url = repairURL sampleServer.url := by
  have h := selection_frame (-1) false "cycle-6" sampleUser [sampleServer]
    sampleServer none none none (by decide)
  exact ⟨h.2.2.2.2.2.1, h.2.2.2.2.2.2.2.1⟩

end SpeedtestExporter
